import Mathlib

/-!
Verification of the dispatch client in `salt/runner.py`.

The Python module is shallowly embedded: dictionaries become functions
`String → Option Val`, exceptions become an explicit `Exc` value threaded
through `Except`, the destructive `dict.pop` mutation of `_reformat_low` is
represented by returning the final state of the input mapping, and the
side effects of `Runner.run` (rendering output, invoking collaborators,
calling `exit`) are recorded in an explicit effect trace.  External
collaborators (`salt.minion.load_args_and_kwargs`, `salt.utils.args.parse_input`,
the async submission mixin, the result collector, the documentation loader)
are oracles supplied as parameters, since only their call sites live in the
source file under study.
-/

set_option maxHeartbeats 1000000

namespace SaltRunner

/-- Values stored in request / configuration mappings.  The dispatch code
never inspects the payload of a value, so a small universe suffices;
`vemptyDict` is the literal `{}` that `Runner.run` initialises `ret` with and
`vnone` is Python `None` (the implicit return of the documentation branch). -/
inductive Val
  | vstr (s : String)
  | vnat (n : Nat)
  | vnone
  | vemptyDict
deriving DecidableEq

/-- A Python dict keyed by strings: lookup is total, absence is `none`. -/
abbrev Req := String → Option Val

/-- The five credential keys popped by `RunnerClient._reformat_low`, in the
order the source lists them. -/
def credKeys : List String := ["username", "password", "eauth", "token", "client"]

/-- Exceptions.  `keyError` is Python's builtin `KeyError` (raised by
`dict.pop` / `dict.__getitem__` on a missing key); `salt` covers the
`salt.exceptions.SaltException` family; `other` is any other builtin or
third-party exception. -/
inductive Exc
  | keyError (k : String)
  | salt (kind : String) (msg : String)
  | other (msg : String)
deriving DecidableEq

/-- Membership in the `SaltException` family, the only family the
`except salt.exceptions.SaltException` clause of `Runner.run` intercepts. -/
def Exc.isSalt : Exc → Bool
  | .salt _ _ => true
  | _ => false

/-- The `str(exc)` rendering used by `Runner.run` when it converts a caught
`SaltException` into a return value. -/
def Exc.toStr : Exc → String
  | .keyError k => k
  | .salt _ msg => msg
  | .other msg => msg

/-- The reformatted low record built by `RunnerClient._reformat_low`:
`{'fun': ..., <credential keys...>, 'kwarg': <residual dict>}`.  The record's
keys are disjoint by construction (`fun` and `kwarg` are not credential
keys), so a structure represents the flat dict faithfully. -/
structure CanonicalLow where
  fn : Val
  creds : String → Option Val
  kwarg : Req

/-- The dict comprehension
`dict([(i, low.pop(i)) for i in [...] if i in low])` of `_reformat_low`:
walk the key list in order, popping each key that is present; returns the
accumulated credential dict together with the mutated residual of `low`. -/
def extractCreds : List String → Req → ((String → Option Val) × Req)
  | [], m => (fun _ => none, m)
  | k :: ks, m =>
    match m k with
    | some v =>
      let rest := extractCreds ks (fun x => if x = k then none else m x)
      (fun x => if x = k then some v else rest.1 x, rest.2)
    | none => extractCreds ks m

/-- `RunnerClient._reformat_low`: pop the five credential keys, then
`low.pop('fun')` (a missing `fun` raises `KeyError('fun')`), build
`{'fun': f} ∪ creds ∪ {'kwarg': low}`.  The second component of the returned
pair is the final (mutated) state of the caller's `low` dict, which is the
very same mapping stored under `kwarg`. -/
def reformat_low (low : Req) : Except Exc (CanonicalLow × Req) :=
  match (extractCreds credKeys low).2 "fun" with
  | none => .error (.keyError "fun")
  | some f =>
    .ok ({ fn := f,
           creds := (extractCreds credKeys low).1,
           kwarg := fun x => if x = "fun" then none else (extractCreds credKeys low).2 x },
         fun x => if x = "fun" then none else (extractCreds credKeys low).2 x)

theorem extractCreds_snd (ks : List String) (m : Req) (x : String) :
    (extractCreds ks m).2 x = if x ∈ ks then none else m x := by
  induction ks generalizing m with
  | nil => simp [extractCreds]
  | cons k ks ih =>
    unfold extractCreds
    cases hk : m k with
    | some v =>
      simp only []
      rw [ih]
      by_cases hxk : x = k
      · subst hxk
        by_cases hx : x ∈ ks <;> simp [hx]
      · by_cases hx : x ∈ ks <;> simp [hx, hxk]
    | none =>
      simp only []
      rw [ih]
      by_cases hxk : x = k
      · subst hxk
        by_cases hx : x ∈ ks <;> simp [hx, hk]
      · by_cases hx : x ∈ ks <;> simp [hx, hxk]

theorem extractCreds_fst (ks : List String) (m : Req) (x : String) :
    (extractCreds ks m).1 x = if x ∈ ks then m x else none := by
  induction ks generalizing m with
  | nil => simp [extractCreds]
  | cons k ks ih =>
    unfold extractCreds
    cases hk : m k with
    | some v =>
      simp only []
      rw [ih]
      by_cases hxk : x = k
      · subst hxk
        by_cases hx : x ∈ ks <;> simp [hx, hk]
      · by_cases hx : x ∈ ks <;> simp [hx, hxk]
    | none =>
      simp only []
      rw [ih]
      by_cases hxk : x = k
      · subst hxk
        by_cases hx : x ∈ ks <;> simp [hx, hk]
      · by_cases hx : x ∈ ks <;> simp [hx, hxk]

theorem fun_notin_credKeys : "fun" ∉ credKeys := by decide

/-- The slice of `self.opts` that `Runner.run` / `Runner.print_docs` read.
Boolean flags are read with `opts.get(key, False)` (absence = `false`);
`fun` and `arg` are read with `opts['fun']` / `opts['arg']`, which raise
`KeyError` when absent, hence `Option`. -/
structure Opts where
  doc : Bool
  asyncFlag : Bool
  quiet : Bool
  fn : Option String
  arg : Option Val

/-- The dict returned by the async submission mixin:
`{'tag': ..., 'pid': ...}`, the Job Handle. -/
structure AsyncPub where
  tag : String
  pid : Nat
deriving DecidableEq

/-- The `low` dict that `Runner.run` hands to the async submission:
`{'fun': ..., 'args': ..., 'kwargs': ...}`. -/
structure LowCall where
  fn : String
  args : List Val
  kwargs : Req

/-- Oracles for the external collaborators invoked by `Runner.run`.  Each
fallible collaborator returns `Except Exc`, so an oracle can raise any
exception, Salt-family or not.  `opResult` is a ghost field recording the
Execution Result the submitted operation eventually produces; it is
delivered over the event bus to the Result Collector and is never seen by
`Runner.run` itself. -/
structure Ext where
  parse_input : Val → Except Exc Val
  load_args_and_kwargs : String → Val → Except Exc (List Val × Req)
  asyncSub : String → LowCall → Except Exc AsyncPub
  print_async_returns : String → Except Exc Unit
  get_docs : Option String → List (String × String)
  opResult : Val

/-- Observable effects of one `Runner.run` invocation, in program order. -/
inductive Eff
  | printedDoc (fn : String) (docText : String)
  | calledParseInput
  | calledLoadArgs
  | calledAsync
  | calledCollector (tag : String)
  | printedErr (s : String)
deriving DecidableEq

/-- How the `try` block of `Runner.run` ends when no exception escapes it:
`exitZero` is the `exit(0)` of the async-flag branch, `done` is falling
through to `return ret`. -/
inductive BodyEnd
  | exitZero
  | done
deriving DecidableEq

/-- The stages of the `try` block of `Runner.run` up to and including the
`super(Runner, self).async(...)` submission, in source order:
`self.opts['fun']`, `self.functions[low['fun']]`, `self.opts['arg']`,
`salt.utils.args.parse_input`, `salt.minion.load_args_and_kwargs`, then the
submission.  None of these stages consults `doc`, `async` or `quiet`. -/
def preSubmit (opts : Opts) (functions : String → Option Unit) (ext : Ext) :
    List Eff × Except Exc AsyncPub :=
  match opts.fn with
  | none => ([], .error (.keyError "fun"))
  | some fn =>
    match functions fn with
    | none => ([], .error (.keyError fn))
    | some _ =>
      match opts.arg with
      | none => ([], .error (.keyError "arg"))
      | some rawArg =>
        match ext.parse_input rawArg with
        | .error e => ([.calledParseInput], .error e)
        | .ok parsed =>
          match ext.load_args_and_kwargs fn parsed with
          | .error e => ([.calledParseInput, .calledLoadArgs], .error e)
          | .ok ak =>
            match ext.asyncSub fn { fn := fn, args := ak.1, kwargs := ak.2 } with
            | .error e => ([.calledParseInput, .calledLoadArgs, .calledAsync], .error e)
            | .ok pub => ([.calledParseInput, .calledLoadArgs, .calledAsync], .ok pub)

/-- The whole `try` block of `Runner.run`: after a successful submission the
async-flag branch logs and calls `exit(0)`; otherwise, unless `quiet` is
set, `self.print_async_returns(async_pub['tag'])` streams results. -/
def runBody (opts : Opts) (functions : String → Option Unit) (ext : Ext) :
    List Eff × Except Exc BodyEnd :=
  let p := preSubmit opts functions ext
  match p.2 with
  | .error e => (p.1, .error e)
  | .ok pub =>
    if opts.asyncFlag then (p.1, .ok .exitZero)
    else if opts.quiet then (p.1, .ok .done)
    else
      match ext.print_async_returns pub.tag with
      | .error e => (p.1 ++ [.calledCollector pub.tag], .error e)
      | .ok _ => (p.1 ++ [.calledCollector pub.tag], .ok .done)

/-- How one `Runner.run` invocation terminates: a normal return, a process
exit (`exit(0)` raises `SystemExit`, which the `except SaltException`
clause does not intercept), or an uncaught exception. -/
inductive Outcome
  | ret (v : Val)
  | exited (code : Nat)
  | raised (e : Exc)
deriving DecidableEq

/-- `Runner.print_docs`: fetch the docs for `self.opts.get('fun', None)` and
render each entry (`display_output` of the header plus `print` of the body). -/
def print_docs (opts : Opts) (ext : Ext) : List Eff :=
  (ext.get_docs opts.fn).map fun p => .printedDoc p.1 p.2

/-- `Runner.run`.  The documentation branch only calls `print_docs` and then
falls off the function (Python returns `None`: both `return ret` statements
sit inside the `else` branch).  Otherwise the `try` block runs; a raised
`SaltException` is converted to `str(exc)`, printed unless `quiet`, and
returned; any other exception propagates; on normal fall-through the
function returns the initial empty dict bound to `ret`. -/
def Runner.run (opts : Opts) (functions : String → Option Unit) (ext : Ext) :
    List Eff × Outcome :=
  if opts.doc then
    (print_docs opts ext, .ret .vnone)
  else
    let r := runBody opts functions ext
    match r.2 with
    | .ok .exitZero => (r.1, .exited 0)
    | .ok .done => (r.1, .ret .vemptyDict)
    | .error e =>
      if e.isSalt then
        if opts.quiet then (r.1, .ret (.vstr (Exc.toStr e)))
        else (r.1 ++ [.printedErr (Exc.toStr e)], .ret (.vstr (Exc.toStr e)))
      else (r.1, .raised e)

/-- The exception raised during one dispatch, if any: the error that escapes
the `try` block of `Runner.run` (the documentation branch dispatches
nothing). -/
def dispatchExc (opts : Opts) (functions : String → Option Unit) (ext : Ext) :
    Option Exc :=
  if opts.doc then none
  else
    match (runBody opts functions ext).2 with
    | .error e => some e
    | .ok _ => none

/-- The Job Handle produced when the submission stages succeed. -/
def submitResult (opts : Opts) (functions : String → Option Unit) (ext : Ext) :
    Option AsyncPub :=
  (preSubmit opts functions ext).2.toOption

/-- Modelled from the spec: events carried by the master event bus
(`job_started` and `job_result`, spec section 6); the bus implementation
(`salt.utils.event`) is not part of the source file under study. -/
inductive BusEvent
  | jobStarted (tag : String) (pid : Nat)
  | jobResult (tag : String) (outcome : Val)
deriving DecidableEq

/-- The tag an event carries, used by subscribers to filter. -/
def eventTag : BusEvent → String
  | .jobStarted t _ => t
  | .jobResult t _ => t

/-- Modelled from the spec: the observable steps of one asynchronous
submission, in time order (spec sections 4.3 and 5); the submission
machinery (`mixins.AsyncClientMixin.async`) is not part of the source file
under study. -/
inductive TimelineStep
  | publishEvent (e : BusEvent)
  | handleReturned (tag : String) (pid : Nat)
  | opExecutes (tag : String)
deriving DecidableEq

/-- Modelled from the spec: the timeline of one asynchronous submission.
Spec section 4.3 fixes the order: publish the `job_started` event, release
the Job Handle to the caller, only then does the operation begin running,
and its terminal `job_result` event is published when it completes. -/
def submissionTimeline (tag : String) (pid : Nat) (result : Val) : List TimelineStep :=
  [ .publishEvent (.jobStarted tag pid),
    .handleReturned tag pid,
    .opExecutes tag,
    .publishEvent (.jobResult tag result) ]

/-- The events published by the first `t` timeline steps. -/
def publishedBy (steps : List TimelineStep) (t : Nat) : List BusEvent :=
  (steps.take t).filterMap fun s =>
    match s with
    | .publishEvent e => some e
    | _ => none

/-- The events published by the steps from time `t` onwards. -/
def publishedAfter (steps : List TimelineStep) (t : Nat) : List BusEvent :=
  (steps.drop t).filterMap fun s =>
    match s with
    | .publishEvent e => some e
    | _ => none

/-- Modelled from the spec: what a subscriber attaching at time `t` with a
tag filter observes — the durably retained events published before it
attached (spec section 5: the start event is durably published before the
handle is released) plus every event published after it attached. -/
def observes (steps : List TimelineStep) (t : Nat) (tag : String) : List BusEvent :=
  (publishedBy steps t ++ publishedAfter steps t).filter fun e => eventTag e == tag

theorem preSubmit_no_collector (opts : Opts) (functions : String → Option Unit)
    (ext : Ext) (t : String) :
    Eff.calledCollector t ∉ (preSubmit opts functions ext).1 := by
  unfold preSubmit
  repeat' split
  all_goals intro hmem
  all_goals simp at hmem

theorem preSubmit_no_printedErr (opts : Opts) (functions : String → Option Unit)
    (ext : Ext) (s : String) :
    Eff.printedErr s ∉ (preSubmit opts functions ext).1 := by
  unfold preSubmit
  repeat' split
  all_goals intro hmem
  all_goals simp at hmem

theorem runBody_no_printedErr (opts : Opts) (functions : String → Option Unit)
    (ext : Ext) (s : String) :
    Eff.printedErr s ∉ (runBody opts functions ext).1 := by
  simp only [runBody]
  repeat' split
  all_goals intro hmem
  all_goals simp at hmem
  all_goals exact preSubmit_no_printedErr _ _ _ _ hmem

theorem preSubmit_update_quiet (opts : Opts) (functions : String → Option Unit)
    (ext : Ext) (b : Bool) :
    preSubmit { opts with quiet := b } functions ext = preSubmit opts functions ext := rfl

theorem dispatchExc_eq (opts : Opts) (functions : String → Option Unit) (ext : Ext)
    (e : Exc) (h : dispatchExc opts functions ext = some e) :
    opts.doc = false ∧ (runBody opts functions ext).2 = .error e := by
  unfold dispatchExc at h
  by_cases hd : opts.doc = true
  · simp [hd] at h
  · have hd' : opts.doc = false := by simpa using hd
    rw [if_neg (by simp [hd'])] at h
    cases hr : (runBody opts functions ext).2 with
    | error e' =>
      rw [hr] at h
      simp at h
      exact ⟨hd', by rw [h]⟩
    | ok v =>
      rw [hr] at h
      simp at h

/-- A concrete invocation request: `fun` plus two credential keys plus one
ordinary kwarg. -/
def req1 : Req := fun k =>
  if k = "fun" then some (.vstr "jobs.list_jobs")
  else if k = "username" then some (.vstr "saltdev")
  else if k = "eauth" then some (.vstr "pam")
  else if k = "timeout" then some (.vnat 30)
  else none

/-- A concrete request with a credential key but no `fun` key. -/
def reqNoFun : Req := fun k =>
  if k = "username" then some (.vstr "saltdev") else none

/-- A loader dict holding a single runner function. -/
def fns1 : String → Option Unit := fun s =>
  if s = "test.arg" then some () else none

/-- Well-behaved collaborators: every external stage succeeds. -/
def extOk : Ext :=
  { parse_input := fun v => .ok v
    load_args_and_kwargs := fun _ _ => .ok ([.vstr "x"], fun _ => none)
    asyncSub := fun _ _ => .ok { tag := "run-20170101010101-abc", pid := 42 }
    print_async_returns := fun _ => .ok ()
    get_docs := fun _ => [("test.arg", "Print out the args")]
    opResult := .vstr "pong" }

/-- Collaborators whose binding stage raises a `SaltException`. -/
def extSaltFail : Ext :=
  { extOk with
    load_args_and_kwargs := fun _ _ => .error (.salt "SaltInvocationError" "bad kwargs") }

/-- Collaborators whose binding stage raises a non-Salt exception. -/
def extTypeFail : Ext :=
  { extOk with load_args_and_kwargs := fun _ _ => .error (.other "TypeError") }

/-- Configuration for a plain synchronous dispatch of `test.arg`. -/
def optsSync : Opts :=
  { doc := false, asyncFlag := false, quiet := false
    fn := some "test.arg", arg := some (.vstr "x") }

/-- Same dispatch with the `async` flag set. -/
def optsAsync : Opts := { optsSync with asyncFlag := true }

/-- Same dispatch with `doc` set. -/
def optsDoc : Opts := { optsSync with doc := true }

/-- Same dispatch with `quiet` set. -/
def optsQuiet : Opts := { optsSync with quiet := true }

/-- A configuration whose `fun` key is absent. -/
def optsNoFun : Opts := { optsSync with fn := none }

theorem runBody_error_quiet_false (opts : Opts) (functions : String → Option Unit)
    (ext : Ext) (e : Exc) (hq : opts.quiet = true)
    (h : (runBody opts functions ext).2 = .error e) :
    (runBody { opts with quiet := false } functions ext).2 = .error e := by
  simp only [runBody, preSubmit_update_quiet] at h ⊢
  cases hp : (preSubmit opts functions ext).2 with
  | error e' =>
    rw [hp] at h
    simp at h
    simp [h]
  | ok pub =>
    rw [hp] at h
    by_cases ha : opts.asyncFlag = true
    · simp [ha] at h
    · simp [ha, hq] at h

/-- C1: for every invocation request containing `fun`, the record built by
`_reformat_low` has a `kwarg` mapping containing none of the five credential
keys and not containing `fun`, its credential fields are exactly the subset
of credential keys present in the request with their original values, and
its `fun` field is the request's `fun` value. -/
theorem reformat_low_partitions_credentials (req : Req) (f : Val)
    (hfun : req "fun" = some f) :
    ∃ rec low2, reformat_low req = .ok (rec, low2) ∧
      rec.fn = f ∧
      (∀ k, k ∈ credKeys → rec.kwarg k = none) ∧
      rec.kwarg "fun" = none ∧
      (∀ k, k ∈ credKeys → rec.creds k = req k) ∧
      (∀ k, k ∉ credKeys → rec.creds k = none) := by
  have hfun2 : (extractCreds credKeys req).2 "fun" = some f := by
    rw [extractCreds_snd, if_neg fun_notin_credKeys]
    exact hfun
  simp only [reformat_low, hfun2]
  refine ⟨_, _, rfl, rfl, ?_, ?_, ?_, ?_⟩
  · intro k hk
    by_cases hkf : k = "fun"
    · simp [hkf]
    · simp only [hkf, if_false, extractCreds_snd, hk, if_pos]
  · simp
  · intro k hk
    simp only [extractCreds_fst, hk, if_pos]
  · intro k hk
    simp only [extractCreds_fst, hk, if_neg]
    simp [hk]

/-- Witness for C1 at the concrete request `req1`. -/
theorem reformat_low_partitions_credentials_witness :
    req1 "fun" = some (Val.vstr "jobs.list_jobs") ∧
    (∃ rec low2, reformat_low req1 = .ok (rec, low2) ∧
      rec.fn = Val.vstr "jobs.list_jobs" ∧
      (∀ k, k ∈ credKeys → rec.kwarg k = none) ∧
      rec.kwarg "fun" = none ∧
      (∀ k, k ∈ credKeys → rec.creds k = req1 k) ∧
      (∀ k, k ∉ credKeys → rec.creds k = none)) :=
  ⟨by decide,
   reformat_low_partitions_credentials req1 (Val.vstr "jobs.list_jobs") (by decide)⟩

/-- C9: normalization destructively consumes its input: the final state of
the caller's `low` dict no longer contains `fun` nor any credential key, the
record's `kwarg` field is exactly that residual mapping, and every other
entry of the input is unchanged in it. -/
theorem reformat_low_consumes_input (req : Req) (f : Val)
    (hfun : req "fun" = some f) :
    ∃ rec low2, reformat_low req = .ok (rec, low2) ∧
      low2 "fun" = none ∧
      (∀ k, k ∈ credKeys → low2 k = none) ∧
      rec.kwarg = low2 ∧
      (∀ k, k ≠ "fun" → k ∉ credKeys → low2 k = req k) := by
  have hfun2 : (extractCreds credKeys req).2 "fun" = some f := by
    rw [extractCreds_snd, if_neg fun_notin_credKeys]
    exact hfun
  simp only [reformat_low, hfun2]
  refine ⟨_, _, rfl, ?_, ?_, rfl, ?_⟩
  · simp
  · intro k hk
    by_cases hkf : k = "fun"
    · simp [hkf]
    · simp only [hkf, if_false, extractCreds_snd, hk, if_pos]
  · intro k hkf hk
    simp only [hkf, if_false, extractCreds_snd, hk, if_neg]

/-- Witness for C9 at the concrete request `req1`. -/
theorem reformat_low_consumes_input_witness :
    req1 "fun" = some (Val.vstr "jobs.list_jobs") ∧
    (∃ rec low2, reformat_low req1 = .ok (rec, low2) ∧
      low2 "fun" = none ∧
      (∀ k, k ∈ credKeys → low2 k = none) ∧
      rec.kwarg = low2 ∧
      (∀ k, k ≠ "fun" → k ∉ credKeys → low2 k = req1 k)) :=
  ⟨by decide,
   reformat_low_consumes_input req1 (Val.vstr "jobs.list_jobs") (by decide)⟩

/-- C3 counterexample: on a request lacking `fun`, `_reformat_low` raises
Python's builtin `KeyError` — which is not a member of the `SaltException`
family, contrary to the claimed `MissingFunctionError`. -/
theorem reformat_low_missing_fun_counterexample :
    reformat_low reqNoFun = .error (Exc.keyError "fun") ∧
    Exc.isSalt (Exc.keyError "fun") = false :=
  ⟨rfl, rfl⟩

/-- C3 (amended): a request without `fun` makes normalization fail with
`KeyError("fun")`, an exception outside the `SaltException` family that the
dispatch boundary does not intercept, and no later stage (binding,
submission, execution) runs: `Runner.run` propagates the `KeyError`
uncaught with neither the binder nor the submission invoked. -/
theorem missing_fun_raises_keyError (req : Req) (opts : Opts)
    (functions : String → Option Unit) (ext : Ext)
    (hreq : req "fun" = none) (hdoc : opts.doc = false) (hfn : opts.fn = none) :
    reformat_low req = .error (.keyError "fun") ∧
    Exc.isSalt (.keyError "fun") = false ∧
    (Runner.run opts functions ext).2 = .raised (.keyError "fun") ∧
    Eff.calledLoadArgs ∉ (Runner.run opts functions ext).1 ∧
    Eff.calledAsync ∉ (Runner.run opts functions ext).1 := by
  have hfun2 : (extractCreds credKeys req).2 "fun" = none := by
    rw [extractCreds_snd, if_neg fun_notin_credKeys]
    exact hreq
  have hps : preSubmit opts functions ext = ([], .error (.keyError "fun")) := by
    simp [preSubmit, hfn]
  have hrb : runBody opts functions ext = ([], .error (.keyError "fun")) := by
    simp [runBody, hps]
  have hrun : Runner.run opts functions ext = ([], .raised (.keyError "fun")) := by
    simp [Runner.run, hdoc, hrb, Exc.isSalt]
  refine ⟨?_, rfl, ?_, ?_, ?_⟩
  · simp [reformat_low, hfun2]
  · rw [hrun]
  · rw [hrun]; simp
  · rw [hrun]; simp

/-- Witness for the amended C3 at the concrete request `reqNoFun` and
configuration `optsNoFun`. -/
theorem missing_fun_raises_keyError_witness :
    reqNoFun "fun" = none ∧ optsNoFun.doc = false ∧ optsNoFun.fn = none ∧
    (reformat_low reqNoFun = .error (.keyError "fun") ∧
     Exc.isSalt (.keyError "fun") = false ∧
     (Runner.run optsNoFun fns1 extOk).2 = .raised (.keyError "fun") ∧
     Eff.calledLoadArgs ∉ (Runner.run optsNoFun fns1 extOk).1 ∧
     Eff.calledAsync ∉ (Runner.run optsNoFun fns1 extOk).1) :=
  ⟨by decide, by decide, by decide,
   missing_fun_raises_keyError reqNoFun optsNoFun fns1 extOk
     (by decide) (by decide) (by decide)⟩

/-- C2 counterexample: a successful synchronous dispatch returns the initial
empty dict, not the Execution Result (`"pong"`) the operation produced. -/
theorem run_sync_returns_empty_counterexample :
    (Runner.run optsSync fns1 extOk).2 = Outcome.ret Val.vemptyDict ∧
    (Runner.run optsSync fns1 extOk).2 ≠ Outcome.ret extOk.opResult :=
  ⟨by decide, by decide⟩

/-- C2 (amended): every synchronous dispatch that succeeds (no `doc`, no
`async` flag, nothing raised) returns the initial empty dict bound to
`ret`; the operation's Execution Result is only streamed by the Result
Collector, never returned by `Runner.run`. -/
theorem run_sync_success_returns_empty (opts : Opts)
    (functions : String → Option Unit) (ext : Ext)
    (hdoc : opts.doc = false) (_ha : opts.asyncFlag = false)
    (hok : (runBody opts functions ext).2 = .ok BodyEnd.done) :
    (Runner.run opts functions ext).2 = .ret .vemptyDict := by
  simp [Runner.run, hdoc, hok]

/-- Witness for the amended C2 at the concrete configuration `optsSync`. -/
theorem run_sync_success_returns_empty_witness :
    optsSync.doc = false ∧ optsSync.asyncFlag = false ∧
    (runBody optsSync fns1 extOk).2 = .ok BodyEnd.done ∧
    (Runner.run optsSync fns1 extOk).2 = .ret .vemptyDict :=
  ⟨by decide, by decide, by rfl,
   run_sync_success_returns_empty optsSync fns1 extOk
     (by decide) (by decide) (by rfl)⟩

/-- C4 counterexample: with the async flag set and a successful submission,
`Runner.run` exits the process with status 0 and returns no value at all —
in particular it does not return the Job Handle to the caller. -/
theorem run_async_no_return_counterexample :
    (Runner.run optsAsync fns1 extOk).2 = Outcome.exited 0 ∧
    ¬ ∃ v, (Runner.run optsAsync fns1 extOk).2 = Outcome.ret v := by
  refine ⟨by decide, ?_⟩
  rintro ⟨v, hv⟩
  rw [show (Runner.run optsAsync fns1 extOk).2 = Outcome.exited 0 by decide] at hv
  simp at hv

/-- C4 (amended): with the async flag set, a successful submission makes the
dispatch terminate the calling process path immediately with exit status 0,
without waiting on the job (the Result Collector is never invoked) and
without returning any value — the Job Handle is only logged, not returned. -/
theorem run_async_exits_zero (opts : Opts) (functions : String → Option Unit)
    (ext : Ext) (pub : AsyncPub) (hdoc : opts.doc = false)
    (ha : opts.asyncFlag = true)
    (hsub : submitResult opts functions ext = some pub) :
    (Runner.run opts functions ext).2 = .exited 0 ∧
    (∀ t, Eff.calledCollector t ∉ (Runner.run opts functions ext).1) ∧
    ∀ v, (Runner.run opts functions ext).2 ≠ .ret v := by
  unfold submitResult at hsub
  cases hp : (preSubmit opts functions ext).2 with
  | error e => rw [hp] at hsub; simp [Except.toOption] at hsub
  | ok pub2 =>
    have hrb : runBody opts functions ext =
        ((preSubmit opts functions ext).1, .ok .exitZero) := by
      simp [runBody, hp, ha]
    have hrun : Runner.run opts functions ext =
        ((preSubmit opts functions ext).1, .exited 0) := by
      simp [Runner.run, hdoc, hrb]
    refine ⟨by rw [hrun], ?_, ?_⟩
    · intro t
      rw [hrun]
      exact preSubmit_no_collector _ _ _ _
    · intro v
      rw [hrun]
      simp

/-- Witness for the amended C4 at the concrete configuration `optsAsync`. -/
theorem run_async_exits_zero_witness :
    optsAsync.doc = false ∧ optsAsync.asyncFlag = true ∧
    submitResult optsAsync fns1 extOk =
      some { tag := "run-20170101010101-abc", pid := 42 } ∧
    ((Runner.run optsAsync fns1 extOk).2 = .exited 0 ∧
     (∀ t, Eff.calledCollector t ∉ (Runner.run optsAsync fns1 extOk).1) ∧
     ∀ v, (Runner.run optsAsync fns1 extOk).2 ≠ .ret v) :=
  ⟨by decide, by decide, by decide,
   run_async_exits_zero optsAsync fns1 extOk
     { tag := "run-20170101010101-abc", pid := 42 }
     (by decide) (by decide) (by decide)⟩

/-- C5: an exception raised during a dispatch is intercepted by `Runner.run`
iff it belongs to the `SaltException` family: a Salt exception is caught and
converted to the returned value `str(exc)`, and any other exception
propagates uncaught to the caller. -/
theorem run_intercepts_iff_salt (opts : Opts) (functions : String → Option Unit)
    (ext : Ext) (e : Exc) (h : dispatchExc opts functions ext = some e) :
    ((Runner.run opts functions ext).2 = .raised e ↔ e.isSalt = false) ∧
    (e.isSalt = true →
      (Runner.run opts functions ext).2 = .ret (.vstr (Exc.toStr e))) := by
  obtain ⟨hdoc, herr⟩ := dispatchExc_eq opts functions ext e h
  by_cases hs : e.isSalt = true
  · have hrun : (Runner.run opts functions ext).2 = .ret (.vstr (Exc.toStr e)) := by
      by_cases hq : opts.quiet = true
      · simp [Runner.run, hdoc, herr, hs, hq]
      · simp [Runner.run, hdoc, herr, hs, hq]
    refine ⟨?_, fun _ => hrun⟩
    rw [hrun]
    simp [hs]
  · have hs' : e.isSalt = false := by simpa using hs
    have hrun : (Runner.run opts functions ext).2 = .raised e := by
      simp [Runner.run, hdoc, herr, hs']
    refine ⟨?_, ?_⟩
    · rw [hrun]
      simp [hs']
    · intro hcon
      simp [hs'] at hcon

/-- Witness for C5: a Salt-family binding failure is converted to its
string form, and is not re-raised. -/
theorem run_intercepts_iff_salt_witness :
    dispatchExc optsSync fns1 extSaltFail =
      some (Exc.salt "SaltInvocationError" "bad kwargs") ∧
    (((Runner.run optsSync fns1 extSaltFail).2 =
        .raised (Exc.salt "SaltInvocationError" "bad kwargs") ↔
      (Exc.salt "SaltInvocationError" "bad kwargs").isSalt = false) ∧
     ((Exc.salt "SaltInvocationError" "bad kwargs").isSalt = true →
       (Runner.run optsSync fns1 extSaltFail).2 =
         .ret (.vstr (Exc.toStr (Exc.salt "SaltInvocationError" "bad kwargs"))))) :=
  ⟨by decide,
   run_intercepts_iff_salt optsSync fns1 extSaltFail
     (Exc.salt "SaltInvocationError" "bad kwargs") (by decide)⟩

/-- C6: when a dispatch fails with a Salt exception while `quiet` is set, no
failure text is printed, yet `Runner.run` still returns the normalized
failure `str(exc)` — the same value it returns when `quiet` is unset. -/
theorem run_quiet_returns_failure (opts : Opts) (functions : String → Option Unit)
    (ext : Ext) (e : Exc) (hq : opts.quiet = true) (hs : e.isSalt = true)
    (h : dispatchExc opts functions ext = some e) :
    (Runner.run opts functions ext).2 = .ret (.vstr (Exc.toStr e)) ∧
    (∀ s, Eff.printedErr s ∉ (Runner.run opts functions ext).1) ∧
    (Runner.run { opts with quiet := false } functions ext).2 =
      .ret (.vstr (Exc.toStr e)) := by
  obtain ⟨hdoc, herr⟩ := dispatchExc_eq opts functions ext e h
  have herr2 := runBody_error_quiet_false opts functions ext e hq herr
  refine ⟨?_, ?_, ?_⟩
  · simp [Runner.run, hdoc, herr, hs, hq]
  · intro s
    have heff : (Runner.run opts functions ext).1 = (runBody opts functions ext).1 := by
      simp [Runner.run, hdoc, herr, hs, hq]
    rw [heff]
    exact runBody_no_printedErr _ _ _ _
  · simp only [Runner.run, herr2]
    simp [hdoc, hs]

/-- Witness for C6: a quiet dispatch hitting a Salt binding failure. -/
theorem run_quiet_returns_failure_witness :
    optsQuiet.quiet = true ∧
    (Exc.salt "SaltInvocationError" "bad kwargs").isSalt = true ∧
    dispatchExc optsQuiet fns1 extSaltFail =
      some (Exc.salt "SaltInvocationError" "bad kwargs") ∧
    ((Runner.run optsQuiet fns1 extSaltFail).2 =
       .ret (.vstr (Exc.toStr (Exc.salt "SaltInvocationError" "bad kwargs"))) ∧
     (∀ s, Eff.printedErr s ∉ (Runner.run optsQuiet fns1 extSaltFail).1) ∧
     (Runner.run { optsQuiet with quiet := false } fns1 extSaltFail).2 =
       .ret (.vstr (Exc.toStr (Exc.salt "SaltInvocationError" "bad kwargs")))) :=
  ⟨by decide, by decide, by decide,
   run_quiet_returns_failure optsQuiet fns1 extSaltFail
     (Exc.salt "SaltInvocationError" "bad kwargs")
     (by decide) (by decide) (by decide)⟩

/-- C7: when `doc` is set, neither argument binding nor the submission is
ever invoked — the effect trace is exactly the documentation listing, every
entry of which is a rendered doc line. -/
theorem run_doc_only_renders_docs (opts : Opts) (functions : String → Option Unit)
    (ext : Ext) (hdoc : opts.doc = true) :
    Eff.calledLoadArgs ∉ (Runner.run opts functions ext).1 ∧
    Eff.calledAsync ∉ (Runner.run opts functions ext).1 ∧
    (Runner.run opts functions ext).1 = print_docs opts ext ∧
    ∀ eff ∈ (Runner.run opts functions ext).1, ∃ f d, eff = .printedDoc f d := by
  have hrun : Runner.run opts functions ext = (print_docs opts ext, .ret .vnone) := by
    simp [Runner.run, hdoc]
  refine ⟨?_, ?_, by rw [hrun], ?_⟩
  · rw [hrun]
    simp [print_docs]
  · rw [hrun]
    simp [print_docs]
  · intro eff hmem
    rw [hrun] at hmem
    rcases List.mem_map.mp hmem with ⟨p, _, hpe⟩
    exact ⟨p.1, p.2, hpe.symm⟩

/-- Witness for C7 at the concrete configuration `optsDoc`. -/
theorem run_doc_only_renders_docs_witness :
    optsDoc.doc = true ∧
    (Eff.calledLoadArgs ∉ (Runner.run optsDoc fns1 extOk).1 ∧
     Eff.calledAsync ∉ (Runner.run optsDoc fns1 extOk).1 ∧
     (Runner.run optsDoc fns1 extOk).1 = print_docs optsDoc extOk ∧
     ∀ eff ∈ (Runner.run optsDoc fns1 extOk).1, ∃ f d, eff = .printedDoc f d) :=
  ⟨by decide, run_doc_only_renders_docs optsDoc fns1 extOk (by decide)⟩

/-- C10: with the async flag set and `doc` unset, a successful submission
makes the dispatch path exit with status 0 without ever invoking the Result
Collector (`print_async_returns`), for either value of `quiet`. -/
theorem run_async_skips_collector (opts : Opts) (functions : String → Option Unit)
    (ext : Ext) (pub : AsyncPub) (hdoc : opts.doc = false)
    (ha : opts.asyncFlag = true)
    (hsub : submitResult opts functions ext = some pub) :
    ∀ b : Bool,
      (Runner.run { opts with quiet := b } functions ext).2 = .exited 0 ∧
      ∀ t, Eff.calledCollector t ∉ (Runner.run { opts with quiet := b } functions ext).1 := by
  intro b
  unfold submitResult at hsub
  cases hp : (preSubmit opts functions ext).2 with
  | error e => rw [hp] at hsub; simp [Except.toOption] at hsub
  | ok pub2 =>
    have hps := preSubmit_update_quiet opts functions ext b
    have hrb : runBody { opts with quiet := b } functions ext =
        ((preSubmit opts functions ext).1, .ok .exitZero) := by
      simp only [runBody, hps, hp]
      simp [ha]
    have hrun : Runner.run { opts with quiet := b } functions ext =
        ((preSubmit opts functions ext).1, .exited 0) := by
      simp only [Runner.run, hrb]
      simp [hdoc]
    refine ⟨by rw [hrun], ?_⟩
    intro t
    rw [hrun]
    exact preSubmit_no_collector _ _ _ _

/-- Witness for C10 at the concrete configuration `optsAsync`, instantiated
with `quiet` set. -/
theorem run_async_skips_collector_witness :
    optsAsync.doc = false ∧ optsAsync.asyncFlag = true ∧
    submitResult optsAsync fns1 extOk =
      some { tag := "run-20170101010101-abc", pid := 42 } ∧
    ((Runner.run { optsAsync with quiet := true } fns1 extOk).2 = .exited 0 ∧
     ∀ t, Eff.calledCollector t ∉
       (Runner.run { optsAsync with quiet := true } fns1 extOk).1) :=
  ⟨by decide, by decide, by decide,
   run_async_skips_collector optsAsync fns1 extOk
     { tag := "run-20170101010101-abc", pid := 42 }
     (by decide) (by decide) (by decide) true⟩

/-- C8: in the submission timeline the `job_started` publish strictly
precedes both the release of the Job Handle and the start of the operation,
so a subscriber attaching with the handle's tag strictly after the handle is
released still observes that handle's `job_started` event. -/
theorem async_publish_ordering (tag : String) (pid : Nat) (result : Val)
    (t : Nat) (ht : 1 < t) :
    (submissionTimeline tag pid result).get? 0 =
      some (.publishEvent (.jobStarted tag pid)) ∧
    (submissionTimeline tag pid result).get? 1 = some (.handleReturned tag pid) ∧
    (submissionTimeline tag pid result).get? 2 = some (.opExecutes tag) ∧
    BusEvent.jobStarted tag pid ∈ observes (submissionTimeline tag pid result) t tag := by
  refine ⟨rfl, rfl, rfl, ?_⟩
  have hmem : BusEvent.jobStarted tag pid ∈
      publishedBy (submissionTimeline tag pid result) t := by
    obtain ⟨k, rfl⟩ : ∃ k, t = k + 2 := ⟨t - 2, by omega⟩
    simp [publishedBy, submissionTimeline, List.take_succ_cons, List.filterMap_cons]
  exact List.mem_filter.mpr
    ⟨List.mem_append.mpr (Or.inl hmem), by simp [eventTag]⟩

/-- Witness for C8 at a concrete tag, pid and attach time. -/
theorem async_publish_ordering_witness :
    (1 : Nat) < 2 ∧
    ((submissionTimeline "run-1" 42 Val.vnone).get? 0 =
       some (.publishEvent (.jobStarted "run-1" 42)) ∧
     (submissionTimeline "run-1" 42 Val.vnone).get? 1 =
       some (.handleReturned "run-1" 42) ∧
     (submissionTimeline "run-1" 42 Val.vnone).get? 2 =
       some (.opExecutes "run-1") ∧
     BusEvent.jobStarted "run-1" 42 ∈
       observes (submissionTimeline "run-1" 42 Val.vnone) 2 "run-1") :=
  ⟨by decide, async_publish_ordering "run-1" 42 Val.vnone 2 (by decide)⟩

end SaltRunner
